import Mathlib

set_option maxHeartbeats 1000000

/-
Verification of the gaze-driven dwell-selection input pipeline
(`useEyeTracking` hook, src/unnamed/part_002 with the pause-policy variant
src/hooks/useEyeTracking.ts for the capability lifecycle).

The development shallowly embeds:
  * the target-resolution pass of the gaze listener (elementsFromPoint stack,
    tolerance probing, closest-tagged-ancestor fallback);
  * the dwell state machine driven by mouse-move events, gaze samples, the
    progress-tick interval, the dwell timeout and the pointer-inactivity
    timeout, with explicit event times and a scheduling discipline that
    forbids skipping a pending timer deadline (JS event-loop timers fire
    before any later event is handled);
  * the capability lifecycle (script load, begin(), its completion callbacks,
    enable/disable) for both hook variants in the repository.
React state setters and refs are modelled as synchronous field updates of a
single record; timer callbacks are explicit events whose effect is a no-op
once the corresponding timer handle has been cleared (clearTimeout /
clearInterval semantics).
-/

/-- A screen-space point (`{x, y}`); coordinates are modelled as integers. -/
structure Pt where
  x : Int
  y : Int
deriving DecidableEq, Repr

/-- An element of the `document.elementsFromPoint` stack, as far as the gaze
listener inspects it: the value of its `data-symbol-id` attribute when present,
the id found by `closest('[data-symbol-id]')` (nearest tagged ancestor or
self, which need not itself be in the stack), and whether it is an
`HTMLElement`. -/
structure Elem where
  symbolId : Option String
  closestId : Option String
  isHTML : Bool
deriving DecidableEq, Repr

/-- The mutable UI tree, abstracted as the `elementsFromPoint` query. -/
abbrev Dom := Pt → List Elem

/-- `tolerance = 50` from the gaze listener. -/
def tolerance : Int := 50

/-- `el.hasAttribute('data-symbol-id')`. -/
def elemTagged (e : Elem) : Bool := e.symbolId.isSome

/-- The four probe points of the tolerance check, in source order:
top, bottom, left, right. -/
def probePoints (p : Pt) : List Pt :=
  [⟨p.x, p.y - tolerance⟩, ⟨p.x, p.y + tolerance⟩, ⟨p.x - tolerance, p.y⟩, ⟨p.x + tolerance, p.y⟩]

/-- The tolerance loop: for each probe point in order, look for the first
tagged element in its stack; stop at the first probe point that has one. -/
def findNearbyButton (dom : Dom) (p : Pt) : Option Elem :=
  (probePoints p).findSome? (fun q => (dom q).find? elemTagged)

/-- The `elements` list after the tolerance check: the exact stack, with the
first nearby tagged element pushed onto the end when the exact stack holds no
tagged element and some probe point does. -/
def augmented (dom : Dom) (p : Pt) : List Elem :=
  let es := dom p
  if es.any elemTagged then es
  else
    match findNearbyButton dom p with
    | some b => es ++ [b]
    | none => es

/-- Target resolution exactly as the gaze listener performs it: first scan the
(augmented) element list for an element carrying `data-symbol-id`; failing
that, scan it for an `HTMLElement` whose `closest('[data-symbol-id]')` finds a
tagged ancestor; the resolved id is that element's attribute value. Returns
`none` when no `buttonElement` is found. -/
def resolveTarget (dom : Dom) (p : Pt) : Option String :=
  let es := augmented dom p
  match es.find? elemTagged with
  | some b => b.symbolId
  | none =>
    match es.find? (fun e => e.isHTML && e.closestId.isSome) with
    | some e => e.closestId
    | none => none

/-- Target resolution as claim C4 words it: the exact hit-test pass runs to
completion first (a tagged ancestor wins when the exact element is untagged),
and only otherwise are the four tolerance probes consulted. -/
def resolveTargetClaim (dom : Dom) (p : Pt) : Option String :=
  let es := dom p
  match es.find? elemTagged with
  | some b => b.symbolId
  | none =>
    match es.find? (fun e => e.isHTML && e.closestId.isSome) with
    | some e => e.closestId
    | none =>
      match findNearbyButton dom p with
      | some b => b.symbolId
      | none => none

/-- Target resolution as the code actually orders its passes: directly tagged
element in the exact stack first, then the tolerance probes, and only then the
closest-tagged-ancestor fallback; `none` when all fail. -/
def resolveTargetAmended (dom : Dom) (p : Pt) : Option String :=
  let es := dom p
  match es.find? elemTagged with
  | some b => b.symbolId
  | none =>
    match findNearbyButton dom p with
    | some b => b.symbolId
    | none =>
      match es.find? (fun e => e.isHTML && e.closestId.isSome) with
      | some e => e.closestId
      | none => none

/-- A DOM refuting C4: the exact stack at the origin holds a single untagged
element whose tagged ancestor is `"A"` (the ancestor's own box does not
contain the point, so it is absent from the stack), while the probe point 50
units above holds a directly tagged element `"B"`. -/
def cexDom : Dom := fun q =>
  if q = ⟨0, 0⟩ then [⟨none, some "A", true⟩]
  else if q = ⟨0, -50⟩ then [⟨some "B", some "B", true⟩]
  else []

lemma find?_append_none {α} (p : α → Bool) (l1 l2 : List α) (h : l1.find? p = none) :
    (l1 ++ l2).find? p = l2.find? p := by
  induction l1 with
  | nil => rfl
  | cons a l ih =>
    rcases hpa : p a with hf | ht
    · rw [List.cons_append, List.find?_cons_of_neg _ (by simp [hpa])]
      rw [List.find?_cons_of_neg _ (by simp [hpa])] at h
      exact ih h
    · rw [List.find?_cons_of_pos _ hpa] at h
      exact absurd h (by simp)

lemma findNearbyButton_tagged (dom : Dom) (p : Pt) (b : Elem)
    (h : findNearbyButton dom p = some b) : elemTagged b = true := by
  unfold findNearbyButton at h
  generalize probePoints p = ps at h
  induction ps with
  | nil => simp [List.findSome?] at h
  | cons q qs ih =>
    rw [List.findSome?_cons] at h
    rcases hq : (dom q).find? elemTagged with hn | hb
    · rw [hq] at h
      exact ih h
    · rw [hq] at h
      cases h
      exact List.find?_some hq

lemma any_eq_false_of_find?_none {α} (p : α → Bool) (l : List α)
    (h : l.find? p = none) : l.any p = false := by
  induction l with
  | nil => rfl
  | cons a t ih =>
    rcases hpa : p a with hf | ht
    · rw [List.find?_cons_of_neg _ (by simp [hpa])] at h
      simp [List.any_cons, hpa, ih h]
    · rw [List.find?_cons_of_pos _ hpa] at h
      exact absurd h (by simp)

lemma any_eq_true_of_find?_some {α} (p : α → Bool) (l : List α) (b : α)
    (h : l.find? p = some b) : l.any p = true := by
  induction l with
  | nil => simp [List.find?] at h
  | cons a t ih =>
    rcases hpa : p a with hf | ht
    · rw [List.find?_cons_of_neg _ (by simp [hpa])] at h
      simp [List.any_cons, hpa, ih h]
    · simp [List.any_cons, hpa]

/-- C4 amended: the implemented resolution equals the pass ordering
"directly tagged in exact stack, then tolerance probes, then
closest-tagged-ancestor fallback, else null". -/
theorem C4_resolution_order (dom : Dom) (p : Pt) :
    resolveTarget dom p = resolveTargetAmended dom p := by
  unfold resolveTarget resolveTargetAmended augmented
  rcases hf : (dom p).find? elemTagged with hn | b
  · have hany : (dom p).any elemTagged = false := any_eq_false_of_find?_none _ _ hf
    rcases hnb : findNearbyButton dom p with h0 | b
    · simp [hany, hnb, hf]
    · have htag : elemTagged b = true := findNearbyButton_tagged dom p b hnb
      have happ : ((dom p) ++ [b]).find? elemTagged = some b := by
        rw [find?_append_none _ _ _ hf, List.find?_cons_of_pos _ htag]
      simp [hany, hnb, happ, hf]
  · have hany : (dom p).any elemTagged = true := any_eq_true_of_find?_some _ _ _ hf
    simp [hany, hf]

/-- C4 counterexample: with an untagged exact element whose tagged ancestor is
`"A"` and a directly tagged element `"B"` at the probe point 50 units above,
the code resolves to `"B"`, while the claimed pass ordering resolves to the
ancestor `"A"`. -/
theorem C4_counterexample :
    resolveTarget cexDom ⟨0, 0⟩ = some "B" ∧
    resolveTargetClaim cexDom ⟨0, 0⟩ = some "A" ∧
    resolveTarget cexDom ⟨0, 0⟩ ≠ resolveTargetClaim cexDom ⟨0, 0⟩ := by
  refine ⟨by decide, by decide, by decide⟩

/-- Dwell progress as the progress interval computes it:
`Math.min((elapsed / dwellTime) * 100, 100)`, over the rationals. -/
def progressAt (dwellTime elapsed : Nat) : ℚ :=
  min ((elapsed : ℚ) / (dwellTime : ℚ) * 100) 100

lemma progressAt_nonneg (d e : Nat) : 0 ≤ progressAt d e := by
  unfold progressAt
  apply le_min _ (by norm_num)
  positivity

lemma progressAt_le_100 (d e : Nat) : progressAt d e ≤ 100 := min_le_right _ _

lemma progressAt_mono (d : Nat) {e1 e2 : Nat} (h : e1 ≤ e2) :
    progressAt d e1 ≤ progressAt d e2 := by
  unfold progressAt
  rcases Nat.eq_zero_or_pos d with hd | hd
  · simp [hd]
  · apply min_le_min _ le_rfl
    have hd' : (0 : ℚ) < (d : ℚ) := by exact_mod_cast hd
    gcongr

/-- The state of the enabled `useEyeTracking` hook (src/unnamed/part_002).
React state and refs are modelled synchronously; the three timer handles are
modelled as the deadline (for `setTimeout`) or next-tick time (for
`setInterval`) of the pending callback, `none` when cleared. `fires`, `clicks`
and `dispatches` are ghost logs of dwell-timer firings, `click()` calls that
completed, and fallback `dispatchEvent` calls; `lastMouseAt`/`lastMousePt`
are ghost records of the last mousemove. -/
structure HookState where
  now : Nat
  enabled : Bool
  dwellTime : Nat
  gazePosition : Option Pt
  hoveredElement : Option String
  dwellProgress : ℚ
  isUsingMouse : Bool
  currentHovered : Option String
  dwellStartTime : Nat
  dwellTimer : Option (Nat × String)
  progressInterval : Option Nat
  mouseTimer : Option Nat
  fires : List (Nat × String)
  clicks : List (Nat × String)
  dispatches : List (Nat × String)
  lastMouseAt : Option Nat
  lastMousePt : Option Pt
deriving DecidableEq, Repr

/-- Initial state of the hook right after the gaze listener is installed,
with dwell-time parameter `d`. -/
def initState (d : Nat) : HookState :=
  { now := 0, enabled := true, dwellTime := d, gazePosition := none,
    hoveredElement := none, dwellProgress := 0, isUsingMouse := false,
    currentHovered := none, dwellStartTime := 0, dwellTimer := none,
    progressInterval := none, mouseTimer := none, fires := [], clicks := [],
    dispatches := [], lastMouseAt := none, lastMousePt := none }

/-- Events of the enabled hook: a mousemove, a gaze sample (carrying the DOM
at that instant and the possibly-null data), a progress-interval tick, the
dwell timeout firing (with whether the synthetic `click()` throws), the
pointer-inactivity timeout firing, and the hook being disabled. Timer events
model the scheduled callback slot: once the handle is cleared they are
no-ops. -/
inductive Ev where
  | mouse (t : Nat) (p : Pt)
  | gaze (t : Nat) (dom : Dom) (d : Option Pt)
  | progTick (t : Nat)
  | dwellFire (t : Nat) (clickFails : Bool)
  | mouseTimeout (t : Nat)
  | disable (t : Nat)

def Ev.isDisable : Ev → Bool
  | .disable _ => true
  | _ => false

def Ev.isFire : Ev → Bool
  | .dwellFire _ _ => true
  | _ => false

def Ev.isGaze : Ev → Bool
  | .gaze _ _ _ => true
  | _ => false

def evTime : Ev → Nat
  | .mouse t _ => t
  | .gaze t _ _ => t
  | .progTick t => t
  | .dwellFire t _ => t
  | .mouseTimeout t => t
  | .disable t => t

/-- `handleMouseMove`: switch to mouse mode, report the mouse point as the
current position, and (re)arm the 5000 ms inactivity timer. -/
def mouseStep (s : HookState) (t : Nat) (p : Pt) : HookState :=
  { s with now := t, isUsingMouse := true, gazePosition := some p,
           mouseTimer := some (t + 5000), lastMouseAt := some t,
           lastMousePt := some p }

/-- The dwell branch of the gaze listener, given the resolution outcome `r`
(`none` = no `buttonElement`; `some id` = a button with attribute value `id`,
where the empty string is falsy in the `elementId &&` guard). -/
def dwellTransition (s : HookState) (t : Nat) (r : Option String) : HookState :=
  match r with
  | some id =>
    if id ≠ "" ∧ some id ≠ s.currentHovered then
      { s with currentHovered := some id, hoveredElement := some id,
               dwellStartTime := t, dwellProgress := 0,
               dwellTimer := some (t + s.dwellTime, id),
               progressInterval := some (t + 50) }
    else s
  | none =>
    if s.currentHovered ≠ none then
      { s with currentHovered := none, hoveredElement := none,
               dwellProgress := 0, dwellTimer := none,
               progressInterval := none }
    else s

/-- The point the dwell machinery uses: the last reported position while in
mouse mode (when one exists), else the gaze sample itself. -/
def currentPointFor (s : HookState) (p : Pt) : Pt :=
  if s.isUsingMouse then
    match s.gazePosition with
    | some q => q
    | none => p
  else p

/-- The gaze listener: ignore null data; update the reported position only
when not in mouse mode; always run target resolution and the dwell transition
on the current point. -/
def gazeStep (s : HookState) (t : Nat) (dom : Dom) (d : Option Pt) : HookState :=
  match d with
  | none => { s with now := t }
  | some p =>
    let q := currentPointFor s p
    let s1 := if s.isUsingMouse then { s with now := t }
              else { s with now := t, gazePosition := some p }
    dwellTransition s1 t (resolveTarget dom q)

/-- The progress-interval callback: recompute
`min((Date.now() - dwellStartTime) / dwellTime * 100, 100)`. -/
def tickStep (s : HookState) (t : Nat) : HookState :=
  if s.progressInterval = some t then
    { s with now := t,
             dwellProgress := progressAt s.dwellTime (t - s.dwellStartTime),
             progressInterval := some (t + 50) }
  else { s with now := t }

/-- The dwell timeout: fire the synthetic activation (`click()`; on an
exception the error is caught and a manual `MouseEvent('click')` is
dispatched), then clear the hovered state, progress, and the progress
interval. -/
def fireStep (s : HookState) (t : Nat) (clickFails : Bool) : HookState :=
  match s.dwellTimer with
  | some (dl, id) =>
    if t = dl then
      { s with now := t,
               fires := (t, id) :: s.fires,
               clicks := if clickFails then s.clicks else (t, id) :: s.clicks,
               dispatches := if clickFails then (t, id) :: s.dispatches else s.dispatches,
               currentHovered := none, hoveredElement := none,
               dwellProgress := 0, dwellTimer := none,
               progressInterval := none }
    else { s with now := t }
  | none => { s with now := t }

/-- The pointer-inactivity timeout: switch back to gaze mode. -/
def mtoStep (s : HookState) (t : Nat) : HookState :=
  if s.mouseTimer = some t then
    { s with now := t, isUsingMouse := false, mouseTimer := none }
  else { s with now := t }

/-- The `!enabled` branch of the effect together with the previous effect
cleanup: clear position, hovered state, progress, mouse mode, and all three
timers. -/
def disableStep (s : HookState) (t : Nat) : HookState :=
  { s with now := t, enabled := false, gazePosition := none,
           hoveredElement := none, dwellProgress := 0, currentHovered := none,
           isUsingMouse := false, dwellTimer := none, progressInterval := none,
           mouseTimer := none, lastMouseAt := none, lastMousePt := none }

def step (s : HookState) : Ev → HookState
  | .mouse t p => mouseStep s t p
  | .gaze t dom d => gazeStep s t dom d
  | .progTick t => tickStep s t
  | .dwellFire t b => fireStep s t b
  | .mouseTimeout t => mtoStep s t
  | .disable t => disableStep s t

def deadlineOk (t : Nat) : Option Nat → Bool
  | none => true
  | some dl => t ≤ dl

/-- The event-loop scheduling discipline: no event may be processed at a time
strictly later than a pending timer deadline (the due callback runs first). -/
def noSkip (s : HookState) (t : Nat) : Bool :=
  deadlineOk t (s.dwellTimer.map (fun x => x.1)) &&
  deadlineOk t s.progressInterval &&
  deadlineOk t s.mouseTimer

/-- Event validity: times are non-decreasing, no pending deadline is skipped,
and mouse/gaze/disable events only occur while the hook is enabled (the
listeners are removed and the gaze stream stopped on disable). -/
def okEv (s : HookState) (e : Ev) : Bool :=
  decide (s.now ≤ evTime e) && noSkip s (evTime e) &&
  match e with
  | .mouse _ _ => s.enabled
  | .gaze _ _ _ => s.enabled
  | .disable _ => s.enabled
  | _ => true

def okRun (s : HookState) : List Ev → Bool
  | [] => true
  | e :: es => okEv s e && okRun (step s e) es

def runFrom (s : HookState) : List Ev → HookState
  | [] => s
  | e :: es => runFrom (step s e) es

/-- Whether every gaze sample in the event list resolves (at the point the
code would use in the state where the sample arrives) to target `T`. -/
def resolvesTo (T : String) (s : HookState) : Ev → Bool
  | .gaze _ dom (some p) => resolveTarget dom (currentPointFor s p) == some T
  | _ => true

def allResolveT (T : String) : HookState → List Ev → Bool
  | _, [] => true
  | s, e :: es => resolvesTo T s e && allResolveT T (step s e) es

lemma runFrom_append (s : HookState) (l1 l2 : List Ev) :
    runFrom s (l1 ++ l2) = runFrom (runFrom s l1) l2 := by
  induction l1 generalizing s with
  | nil => rfl
  | cons e es ih => simp [runFrom, ih]

lemma okRun_append (s : HookState) (l1 l2 : List Ev) :
    okRun s (l1 ++ l2) = (okRun s l1 && okRun (runFrom s l1) l2) := by
  induction l1 generalizing s with
  | nil => simp [okRun, runFrom]
  | cons e es ih => simp [okRun, runFrom, ih, Bool.and_assoc]

/-- The reachable-state invariant of the enabled hook: hovered state and ref
agree; progress is in range, is zero when idle, and never exceeds the value
the interval would compute at the current time; mouse mode holds exactly the
state the arbitration code maintains (last pointer point reported, inactivity
timer armed at the last activity plus 5000 ms and not yet elapsed); out of
mouse mode, either no pointer activity was ever seen or the inactivity window
has elapsed. -/
def SInv (s : HookState) : Prop :=
  s.hoveredElement = s.currentHovered ∧
  0 ≤ s.dwellProgress ∧
  s.dwellProgress ≤ 100 ∧
  (s.currentHovered = none →
    s.dwellProgress = 0 ∧ s.progressInterval = none ∧ s.dwellTimer = none) ∧
  s.dwellProgress ≤ progressAt s.dwellTime (s.now - s.dwellStartTime) ∧
  (s.isUsingMouse = true →
    (∃ q, s.lastMousePt = some q ∧ s.gazePosition = some q) ∧
    (∃ tm, s.lastMouseAt = some tm ∧ s.mouseTimer = some (tm + 5000) ∧
      s.now ≤ tm + 5000)) ∧
  (s.isUsingMouse = false →
    (s.lastMouseAt = none ∧ s.mouseTimer = none) ∨
    (∃ tm, s.lastMouseAt = some tm ∧ tm + 5000 ≤ s.now ∧ s.mouseTimer = none))

lemma sinv_initState (d : Nat) : SInv (initState d) := by
  refine ⟨rfl, le_refl _, by norm_num [initState], fun _ => ⟨rfl, rfl, rfl⟩,
    ?_, fun h => by simp [initState] at h, fun _ => Or.inl ⟨rfl, rfl⟩⟩
  simpa [initState] using progressAt_nonneg d 0

lemma okEv_parts (s : HookState) (e : Ev) (h : okEv s e = true) :
    s.now ≤ evTime e ∧ noSkip s (evTime e) = true := by
  unfold okEv at h
  rw [Bool.and_assoc] at h
  rcases Bool.and_eq_true_iff.mp h with ⟨h1, h2⟩
  rcases Bool.and_eq_true_iff.mp h2 with ⟨h3, _⟩
  exact ⟨of_decide_eq_true h1, h3⟩

lemma noSkip_mouseTimer (s : HookState) (t m : Nat) (h : noSkip s t = true)
    (hm : s.mouseTimer = some m) : t ≤ m := by
  unfold noSkip at h
  rcases Bool.and_eq_true_iff.mp h with ⟨_, h2⟩
  rw [hm] at h2
  simpa [deadlineOk] using h2

lemma noSkip_dwellTimer (s : HookState) (t dl : Nat) (id : String)
    (h : noSkip s t = true) (hd : s.dwellTimer = some (dl, id)) : t ≤ dl := by
  unfold noSkip at h
  rcases Bool.and_eq_true_iff.mp h with ⟨h1, _⟩
  rcases Bool.and_eq_true_iff.mp h1 with ⟨h2, _⟩
  rw [hd] at h2
  simpa [deadlineOk] using h2

lemma bound_mono (s : HookState) (t : Nat) (ht : s.now ≤ t)
    (h : s.dwellProgress ≤ progressAt s.dwellTime (s.now - s.dwellStartTime)) :
    s.dwellProgress ≤ progressAt s.dwellTime (t - s.dwellStartTime) :=
  le_trans h (progressAt_mono _ (Nat.sub_le_sub_right ht _))

/-- Invariant facts carried through a step that only moves the clock and the
mouse-arbitration bookkeeping are reused below; each event gets its own
preservation lemma. -/
lemma sinv_mouseStep (s : HookState) (t : Nat) (p : Pt) (hInv : SInv s)
    (ht : s.now ≤ t) : SInv (mouseStep s t p) := by
  obtain ⟨h1, h2, h3, h4, h5, _, _⟩ := hInv
  refine ⟨h1, h2, h3, h4, ?_, ?_, ?_⟩
  · simpa [mouseStep] using bound_mono s t ht h5
  · intro _
    exact ⟨⟨p, rfl, rfl⟩, ⟨t, rfl, rfl, Nat.le_add_right _ _⟩⟩
  · intro hfalse
    simp [mouseStep] at hfalse

lemma sinv_clock_only (s : HookState) (t : Nat) (hInv : SInv s) (ht : s.now ≤ t)
    (hns : noSkip s t = true) : SInv { s with now := t } := by
  obtain ⟨h1, h2, h3, h4, h5, h6, h7⟩ := hInv
  refine ⟨h1, h2, h3, h4, bound_mono s t ht h5, ?_, ?_⟩
  · intro hm
    obtain ⟨hq, tm, htm, hmt, _⟩ := h6 hm
    exact ⟨hq, tm, htm, hmt, noSkip_mouseTimer s t _ hns hmt⟩
  · intro hm
    rcases h7 hm with h | ⟨tm, htm, hle, hmt⟩
    · exact Or.inl h
    · exact Or.inr ⟨tm, htm, le_trans hle ht, hmt⟩

lemma sinv_gazePos (s : HookState) (t : Nat) (p : Pt) (hInv : SInv s)
    (ht : s.now ≤ t) (hns : noSkip s t = true) (hm : s.isUsingMouse = false) :
    SInv { s with now := t, gazePosition := some p } := by
  obtain ⟨h1, h2, h3, h4, h5, h6, h7⟩ := hInv
  refine ⟨h1, h2, h3, h4, bound_mono s t ht h5, ?_, ?_⟩
  · intro hmm
    simp at hmm
    rw [hm] at hmm
    exact absurd hmm (by simp)
  · intro _
    rcases h7 hm with h | ⟨tm, htm, hle, hmt⟩
    · exact Or.inl h
    · exact Or.inr ⟨tm, htm, le_trans hle ht, hmt⟩

lemma sinv_dwellTransition (s : HookState) (r : Option String) (hInv : SInv s) :
    SInv (dwellTransition s s.now r) := by
  obtain ⟨h1, h2, h3, h4, h5, h6, h7⟩ := hInv
  match r with
  | some id =>
    by_cases hc : id ≠ "" ∧ some id ≠ s.currentHovered
    · simp only [dwellTransition, if_pos hc]
      refine ⟨rfl, le_refl _, by norm_num, by simp, ?_, h6, h7⟩
      simpa using progressAt_nonneg s.dwellTime 0
    · simpa only [dwellTransition, if_neg hc] using ⟨h1, h2, h3, h4, h5, h6, h7⟩
  | none =>
    by_cases hc : s.currentHovered ≠ none
    · simp only [dwellTransition, if_pos hc]
      refine ⟨rfl, le_refl _, by norm_num, fun _ => ⟨rfl, rfl, rfl⟩, ?_, h6, h7⟩
      simpa using progressAt_nonneg s.dwellTime _
    · simpa only [dwellTransition, if_neg hc] using ⟨h1, h2, h3, h4, h5, h6, h7⟩

lemma sinv_gazeStep (s : HookState) (t : Nat) (dom : Dom) (d : Option Pt)
    (hInv : SInv s) (ht : s.now ≤ t) (hns : noSkip s t = true) :
    SInv (gazeStep s t dom d) := by
  match d with
  | none => exact sinv_clock_only s t hInv ht hns
  | some p =>
    unfold gazeStep
    rcases hm : s.isUsingMouse with hf | htr
    · have h9 := sinv_dwellTransition { s with now := t, gazePosition := some p }
        (resolveTarget dom (currentPointFor s p)) (sinv_gazePos s t p hInv ht hns hm)
      simp only [hm] at h9 ⊢
      simpa using h9
    · have h9 := sinv_dwellTransition { s with now := t }
        (resolveTarget dom (currentPointFor s p)) (sinv_clock_only s t hInv ht hns)
      simp only [hm] at h9 ⊢
      simpa using h9

lemma sinv_tickStep (s : HookState) (t : Nat) (hInv : SInv s) (ht : s.now ≤ t)
    (hns : noSkip s t = true) : SInv (tickStep s t) := by
  by_cases hc : s.progressInterval = some t
  · obtain ⟨h1, h2, h3, h4, h5, h6, h7⟩ := hInv
    unfold tickStep
    rw [if_pos hc]
    refine ⟨h1, progressAt_nonneg _ _, progressAt_le_100 _ _, ?_, le_refl _, ?_, ?_⟩
    · intro hnone
      obtain ⟨_, hint, _⟩ := h4 hnone
      rw [hint] at hc
      exact absurd hc (by simp)
    · intro hmm
      obtain ⟨hq, tm, htm, hmt, _⟩ := h6 hmm
      exact ⟨hq, tm, htm, hmt, noSkip_mouseTimer s t _ hns hmt⟩
    · intro hmm
      rcases h7 hmm with h | ⟨tm, htm, hle, hmt⟩
      · exact Or.inl h
      · exact Or.inr ⟨tm, htm, le_trans hle ht, hmt⟩
  · unfold tickStep
    rw [if_neg hc]
    exact sinv_clock_only s t hInv ht hns

lemma fireStep_eq_none (s : HookState) (t : Nat) (b : Bool)
    (hdt : s.dwellTimer = none) : fireStep s t b = { s with now := t } := by
  unfold fireStep
  rw [hdt]

lemma fireStep_eq_some (s : HookState) (t : Nat) (b : Bool) (dl : Nat)
    (id : String) (hdt : s.dwellTimer = some (dl, id)) :
    fireStep s t b =
      if t = dl then
        { s with now := t, fires := (t, id) :: s.fires,
                 clicks := if b then s.clicks else (t, id) :: s.clicks,
                 dispatches := if b then (t, id) :: s.dispatches else s.dispatches,
                 currentHovered := none, hoveredElement := none,
                 dwellProgress := 0, dwellTimer := none,
                 progressInterval := none }
      else { s with now := t } := by
  unfold fireStep
  rw [hdt]

lemma sinv_fireStep (s : HookState) (t : Nat) (b : Bool) (hInv : SInv s)
    (ht : s.now ≤ t) (hns : noSkip s t = true) : SInv (fireStep s t b) := by
  rcases hdt : s.dwellTimer with h0 | ⟨dl, id⟩
  · rw [fireStep_eq_none s t b hdt]
    exact sinv_clock_only s t hInv ht hns
  · rw [fireStep_eq_some s t b dl id hdt]
    by_cases hte : t = dl
    · rw [if_pos hte]
      obtain ⟨h1, h2, h3, h4, h5, h6, h7⟩ := hInv
      refine ⟨rfl, le_refl _, by norm_num, fun _ => ⟨rfl, rfl, rfl⟩, ?_, ?_, ?_⟩
      · simpa using progressAt_nonneg s.dwellTime _
      · intro hmm
        obtain ⟨hq, tm, htm, hmt, _⟩ := h6 hmm
        exact ⟨hq, tm, htm, hmt, noSkip_mouseTimer s t _ hns hmt⟩
      · intro hmm
        rcases h7 hmm with h | ⟨tm, htm, hle, hmt⟩
        · exact Or.inl h
        · exact Or.inr ⟨tm, htm, le_trans hle ht, hmt⟩
    · rw [if_neg hte]
      exact sinv_clock_only s t hInv ht hns

lemma sinv_mtoStep (s : HookState) (t : Nat) (hInv : SInv s) (ht : s.now ≤ t)
    (hns : noSkip s t = true) : SInv (mtoStep s t) := by
  by_cases hc : s.mouseTimer = some t
  · obtain ⟨h1, h2, h3, h4, h5, h6, h7⟩ := hInv
    unfold mtoStep
    rw [if_pos hc]
    rcases hmm : s.isUsingMouse with hf | htr
    · rcases h7 hmm with ⟨_, hno⟩ | ⟨_, _, _, hno⟩ <;>
        (rw [hno] at hc; exact absurd hc (by simp))
    · obtain ⟨_, tm, htm, hmt', hle⟩ := h6 hmm
      rw [hmt'] at hc
      injection hc with hmeq
      refine ⟨h1, h2, h3, h4, bound_mono s t ht h5, ?_, ?_⟩
      · intro hcon
        simp at hcon
      · intro _
        refine Or.inr ⟨tm, htm, ?_, rfl⟩
        show tm + 5000 ≤ t
        omega
  · unfold mtoStep
    rw [if_neg hc]
    exact sinv_clock_only s t hInv ht hns

lemma sinv_disableStep (s : HookState) (t : Nat) (hInv : SInv s) :
    SInv (disableStep s t) := by
  refine ⟨rfl, le_refl _, by norm_num [disableStep], fun _ => ⟨rfl, rfl, rfl⟩, ?_, ?_, ?_⟩
  · simpa [disableStep] using progressAt_nonneg s.dwellTime _
  · intro hcon
    simp [disableStep] at hcon
  · intro _
    exact Or.inl ⟨rfl, rfl⟩

lemma sinv_step (s : HookState) (e : Ev) (hInv : SInv s) (hok : okEv s e = true) :
    SInv (step s e) := by
  obtain ⟨ht, hns⟩ := okEv_parts s e hok
  match e with
  | .mouse t p => exact sinv_mouseStep s t p hInv ht
  | .gaze t dom d => exact sinv_gazeStep s t dom d hInv ht hns
  | .progTick t => exact sinv_tickStep s t hInv ht hns
  | .dwellFire t b => exact sinv_fireStep s t b hInv ht hns
  | .mouseTimeout t => exact sinv_mtoStep s t hInv ht hns
  | .disable t => exact sinv_disableStep s t hInv

lemma sinv_runFrom (s : HookState) (evs : List Ev) (hInv : SInv s)
    (hok : okRun s evs = true) : SInv (runFrom s evs) := by
  induction evs generalizing s with
  | nil => exact hInv
  | cons e es ih =>
    rcases Bool.and_eq_true_iff.mp hok with ⟨h1, h2⟩
    exact ih (step s e) (sinv_step s e hInv h1) h2

lemma dwellTransition_same (s : HookState) (t : Nat) (T : String)
    (h : s.currentHovered = some T) : dwellTransition s t (some T) = s := by
  have hc : ¬(T ≠ "" ∧ some T ≠ s.currentHovered) := fun hc => hc.2 h.symm
  simp only [dwellTransition, if_neg hc]

lemma dwellTransition_gazePosition (s : HookState) (t : Nat) (r : Option String) :
    (dwellTransition s t r).gazePosition = s.gazePosition := by
  match r with
  | some id =>
    by_cases hc : id ≠ "" ∧ some id ≠ s.currentHovered
    · simp only [dwellTransition, if_pos hc]
    · simp only [dwellTransition, if_neg hc]
  | none =>
    by_cases hc : s.currentHovered ≠ none
    · simp only [dwellTransition, if_pos hc]
    · simp only [dwellTransition, if_neg hc]

lemma dwellTransition_progress (s : HookState) (t : Nat) (r : Option String)
    (h1 : s.hoveredElement = s.currentHovered) :
    ((dwellTransition s t r).hoveredElement = s.hoveredElement →
      (dwellTransition s t r).dwellProgress = s.dwellProgress) ∧
    ((dwellTransition s t r).hoveredElement ≠ s.hoveredElement →
      (dwellTransition s t r).dwellProgress = 0) := by
  match r with
  | some id =>
    by_cases hc : id ≠ "" ∧ some id ≠ s.currentHovered
    · simp only [dwellTransition, if_pos hc]
      constructor
      · intro h
        exact absurd (h.trans h1) hc.2
      · intro _
        trivial
    · simp only [dwellTransition, if_neg hc]
      simp
  | none =>
    by_cases hc : s.currentHovered ≠ none
    · simp only [dwellTransition, if_pos hc]
      constructor
      · intro h
        exact absurd (h1.symm.trans h.symm) hc
      · intro _
        trivial
    · simp only [dwellTransition, if_neg hc]
      simp

lemma prog_triv (s s' : HookState) (hh : s'.hoveredElement = s.hoveredElement)
    (hp : s'.dwellProgress = s.dwellProgress) :
    (s'.hoveredElement = s.hoveredElement → s.dwellProgress ≤ s'.dwellProgress) ∧
    (s'.hoveredElement ≠ s.hoveredElement → s'.dwellProgress = 0) :=
  ⟨fun _ => le_of_eq hp.symm, fun h => absurd hh h⟩

lemma gazeStep_eq_mouseMode (s : HookState) (t : Nat) (dom : Dom) (p : Pt)
    (hm : s.isUsingMouse = true) :
    gazeStep s t dom (some p) =
      dwellTransition { s with now := t } t
        (resolveTarget dom (currentPointFor s p)) := by
  unfold gazeStep
  rw [hm]
  simp

lemma gazeStep_eq_gazeMode (s : HookState) (t : Nat) (dom : Dom) (p : Pt)
    (hm : s.isUsingMouse = false) :
    gazeStep s t dom (some p) =
      dwellTransition { s with now := t, gazePosition := some p } t
        (resolveTarget dom (currentPointFor s p)) := by
  unfold gazeStep
  rw [hm]
  simp

lemma step_progress (s : HookState) (e : Ev) (hInv : SInv s)
    (hok : okEv s e = true) :
    ((step s e).hoveredElement = s.hoveredElement →
      s.dwellProgress ≤ (step s e).dwellProgress) ∧
    ((step s e).hoveredElement ≠ s.hoveredElement →
      (step s e).dwellProgress = 0) := by
  obtain ⟨ht, hns⟩ := okEv_parts s e hok
  obtain ⟨h1, h2, h3, h4, h5, h6, h7⟩ := hInv
  match e with
  | .mouse t p => exact prog_triv s _ rfl rfl
  | .gaze t dom dd =>
    match dd with
    | none => exact prog_triv s _ rfl rfl
    | some p =>
      rcases hm : s.isUsingMouse with hf | htr
      · have heq : step s (Ev.gaze t dom (some p)) =
            dwellTransition { s with now := t, gazePosition := some p } t
              (resolveTarget dom (currentPointFor s p)) :=
          gazeStep_eq_gazeMode s t dom p hm
        rw [heq]
        have hd := dwellTransition_progress
          { s with now := t, gazePosition := some p } t
          (resolveTarget dom (currentPointFor s p)) h1
        exact ⟨fun h => le_of_eq (hd.1 h).symm, fun h => hd.2 h⟩
      · have heq : step s (Ev.gaze t dom (some p)) =
            dwellTransition { s with now := t } t
              (resolveTarget dom (currentPointFor s p)) :=
          gazeStep_eq_mouseMode s t dom p hm
        rw [heq]
        have hd := dwellTransition_progress { s with now := t } t
          (resolveTarget dom (currentPointFor s p)) h1
        exact ⟨fun h => le_of_eq (hd.1 h).symm, fun h => hd.2 h⟩
  | .progTick t =>
    by_cases hc : s.progressInterval = some t
    · have heq : step s (Ev.progTick t) =
          { s with now := t,
                   dwellProgress := progressAt s.dwellTime (t - s.dwellStartTime),
                   progressInterval := some (t + 50) } := by
        show tickStep s t = _
        unfold tickStep
        rw [if_pos hc]
      rw [heq]
      refine ⟨fun _ => bound_mono s t ht h5, fun h => absurd rfl h⟩
    · have heq : step s (Ev.progTick t) = { s with now := t } := by
        show tickStep s t = _
        unfold tickStep
        rw [if_neg hc]
      rw [heq]
      exact prog_triv s _ rfl rfl
  | .dwellFire t b =>
    rcases hdt : s.dwellTimer with h0 | ⟨dl, id⟩
    · rw [show step s (Ev.dwellFire t b) = fireStep s t b from rfl,
          fireStep_eq_none s t b hdt]
      exact prog_triv s _ rfl rfl
    · rw [show step s (Ev.dwellFire t b) = fireStep s t b from rfl,
          fireStep_eq_some s t b dl id hdt]
      by_cases hte : t = dl
      · rw [if_pos hte]
        have hcn : s.currentHovered ≠ none := by
          intro hcc
          obtain ⟨_, _, hdt0⟩ := h4 hcc
          rw [hdt0] at hdt
          exact absurd hdt (by simp)
        constructor
        · intro h
          exact absurd (h1.symm.trans h.symm) hcn
        · intro _
          rfl
      · rw [if_neg hte]
        exact prog_triv s _ rfl rfl
  | .mouseTimeout t =>
    by_cases hc : s.mouseTimer = some t
    · have heq : step s (Ev.mouseTimeout t) =
          { s with now := t, isUsingMouse := false, mouseTimer := none } := by
        show mtoStep s t = _
        unfold mtoStep
        rw [if_pos hc]
      rw [heq]
      exact prog_triv s _ rfl rfl
    · have heq : step s (Ev.mouseTimeout t) = { s with now := t } := by
        show mtoStep s t = _
        unfold mtoStep
        rw [if_neg hc]
      rw [heq]
      exact prog_triv s _ rfl rfl
  | .disable t =>
    constructor
    · intro h
      have hnone : s.hoveredElement = none := h.symm
      have h0 : s.dwellProgress = 0 := (h4 (h1.symm.trans hnone).symm.symm).1
      rw [h0]
      exact le_of_eq rfl
    · intro _
      rfl

lemma okRun_snoc (s : HookState) (pre : List Ev) (e : Ev)
    (hok : okRun s (pre ++ [e]) = true) :
    okRun s pre = true ∧ okEv (runFrom s pre) e = true := by
  rw [okRun_append] at hok
  obtain ⟨h1, h2⟩ := Bool.and_eq_true_iff.mp hok
  refine ⟨h1, ?_⟩
  unfold okRun at h2
  obtain ⟨h3, _⟩ := Bool.and_eq_true_iff.mp h2
  exact h3

lemma runFrom_snoc (s : HookState) (pre : List Ev) (e : Ev) :
    runFrom s (pre ++ [e]) = step (runFrom s pre) e := by
  rw [runFrom_append]
  rfl

/-- C2: along every valid event sequence, `dwellProgress` stays in the
interval [0, 100]; every step that leaves the hovered target id unchanged
leaves it non-decreasing, and every step that changes the hovered target id
(including changes to and from null) resets it to 0. -/
theorem C2_progress_range_monotone_reset (d : Nat) (pre : List Ev) (e : Ev)
    (hok : okRun (initState d) (pre ++ [e]) = true) :
    0 ≤ (runFrom (initState d) (pre ++ [e])).dwellProgress ∧
    (runFrom (initState d) (pre ++ [e])).dwellProgress ≤ 100 ∧
    ((runFrom (initState d) (pre ++ [e])).hoveredElement =
        (runFrom (initState d) pre).hoveredElement →
      (runFrom (initState d) pre).dwellProgress ≤
        (runFrom (initState d) (pre ++ [e])).dwellProgress) ∧
    ((runFrom (initState d) (pre ++ [e])).hoveredElement ≠
        (runFrom (initState d) pre).hoveredElement →
      (runFrom (initState d) (pre ++ [e])).dwellProgress = 0) := by
  obtain ⟨hpre, he⟩ := okRun_snoc (initState d) pre e hok
  have hInv := sinv_runFrom (initState d) pre (sinv_initState d) hpre
  have hInv2 := sinv_step (runFrom (initState d) pre) e hInv he
  have hsp := step_progress (runFrom (initState d) pre) e hInv he
  rw [runFrom_snoc]
  exact ⟨hInv2.2.1, hInv2.2.2.1, hsp.1, hsp.2⟩

/-- C5: in every valid reachable state, the active source is the pointer
(`isUsingMouse = true`) exactly while the last pointer-movement event lies
within the 5000 ms inactivity window (boundary instants up to tick
granularity); a mousemove at time `t` immediately switches to the pointer
source and records the event point as the reported position, and the
inactivity timeout at `t + 5000` switches back to gaze. -/
theorem C5_source_arbitration (d : Nat) (pre : List Ev)
    (hok : okRun (initState d) pre = true) :
    ((runFrom (initState d) pre).isUsingMouse = true →
      ∃ tm, (runFrom (initState d) pre).lastMouseAt = some tm ∧
        (runFrom (initState d) pre).now ≤ tm + 5000) ∧
    ((runFrom (initState d) pre).isUsingMouse = false →
      (runFrom (initState d) pre).lastMouseAt = none ∨
      ∃ tm, (runFrom (initState d) pre).lastMouseAt = some tm ∧
        tm + 5000 ≤ (runFrom (initState d) pre).now) ∧
    (∀ t p, (step (runFrom (initState d) pre) (Ev.mouse t p)).isUsingMouse = true ∧
      (step (runFrom (initState d) pre) (Ev.mouse t p)).gazePosition = some p ∧
      (step (runFrom (initState d) pre) (Ev.mouse t p)).mouseTimer = some (t + 5000)) ∧
    (∀ t, (runFrom (initState d) pre).mouseTimer = some t →
      (step (runFrom (initState d) pre) (Ev.mouseTimeout t)).isUsingMouse = false) := by
  have hInv := sinv_runFrom (initState d) pre (sinv_initState d) hok
  obtain ⟨_, _, _, _, _, h6, h7⟩ := hInv
  refine ⟨?_, ?_, ?_, ?_⟩
  · intro hm
    obtain ⟨_, tm, htm, _, hle⟩ := h6 hm
    exact ⟨tm, htm, hle⟩
  · intro hm
    rcases h7 hm with ⟨hn, _⟩ | ⟨tm, htm, hle, _⟩
    · exact Or.inl hn
    · exact Or.inr ⟨tm, htm, hle⟩
  · intro t p
    exact ⟨rfl, rfl, rfl⟩
  · intro t hmt
    show (mtoStep (runFrom (initState d) pre) t).isUsingMouse = false
    unfold mtoStep
    rw [if_pos hmt]

/-- C7: a gaze sample arriving while the active source is the pointer leaves
the reported position untouched and drives the target-resolution and
dwell-transition step with the last known pointer point; while the active
source is gaze, the sample overwrites the reported position and drives the
same step with its own point. -/
theorem C7_gaze_sample_dual_track (d : Nat) (pre : List Ev) (t : Nat)
    (dom : Dom) (p : Pt)
    (hok : okRun (initState d) (pre ++ [Ev.gaze t dom (some p)]) = true) :
    ((runFrom (initState d) pre).isUsingMouse = true →
      ∃ q, (runFrom (initState d) pre).gazePosition = some q ∧
        (runFrom (initState d) pre).lastMousePt = some q ∧
        (runFrom (initState d) (pre ++ [Ev.gaze t dom (some p)])).gazePosition = some q ∧
        runFrom (initState d) (pre ++ [Ev.gaze t dom (some p)]) =
          dwellTransition { runFrom (initState d) pre with now := t } t
            (resolveTarget dom q)) ∧
    ((runFrom (initState d) pre).isUsingMouse = false →
      (runFrom (initState d) (pre ++ [Ev.gaze t dom (some p)])).gazePosition = some p ∧
      runFrom (initState d) (pre ++ [Ev.gaze t dom (some p)]) =
        dwellTransition { runFrom (initState d) pre with
          now := t, gazePosition := some p } t (resolveTarget dom p)) := by
  obtain ⟨hpre, he⟩ := okRun_snoc (initState d) pre (Ev.gaze t dom (some p)) hok
  have hInv := sinv_runFrom (initState d) pre (sinv_initState d) hpre
  obtain ⟨_, _, _, _, _, h6, _⟩ := hInv
  rw [runFrom_snoc]
  constructor
  · intro hm
    obtain ⟨⟨q, hpt, hgp⟩, _⟩ := h6 hm
    have hcp : currentPointFor (runFrom (initState d) pre) p = q := by
      unfold currentPointFor
      rw [hm, hgp]
      simp
    have heq : step (runFrom (initState d) pre) (Ev.gaze t dom (some p)) =
        dwellTransition { runFrom (initState d) pre with now := t } t
          (resolveTarget dom q) := by
      rw [show step (runFrom (initState d) pre) (Ev.gaze t dom (some p)) =
          gazeStep (runFrom (initState d) pre) t dom (some p) from rfl,
        gazeStep_eq_mouseMode _ t dom p hm, hcp]
    refine ⟨q, hgp, hpt, ?_, heq⟩
    rw [heq, dwellTransition_gazePosition]
    exact hgp
  · intro hm
    have hcp : currentPointFor (runFrom (initState d) pre) p = p := by
      unfold currentPointFor
      rw [hm]
      simp
    have heq : step (runFrom (initState d) pre) (Ev.gaze t dom (some p)) =
        dwellTransition { runFrom (initState d) pre with
          now := t, gazePosition := some p } t (resolveTarget dom p) := by
      rw [show step (runFrom (initState d) pre) (Ev.gaze t dom (some p)) =
          gazeStep (runFrom (initState d) pre) t dom (some p) from rfl,
        gazeStep_eq_gazeMode _ t dom p hm, hcp]
    refine ⟨?_, heq⟩
    rw [heq, dwellTransition_gazePosition]

/-- States with no dwell ever started and no activation ever emitted. -/
def IdleNoGaze (s : HookState) : Prop :=
  s.hoveredElement = none ∧ s.currentHovered = none ∧ s.dwellTimer = none ∧
  s.progressInterval = none ∧ s.fires = [] ∧ s.clicks = [] ∧ s.dispatches = []

lemma idle_no_gaze_step (s : HookState) (e : Ev) (hne : e.isGaze = false)
    (h : IdleNoGaze s) : IdleNoGaze (step s e) := by
  obtain ⟨a1, a2, a3, a4, a5, a6, a7⟩ := h
  match e with
  | .mouse t p => exact ⟨a1, a2, a3, a4, a5, a6, a7⟩
  | .gaze t dom dd => simp [Ev.isGaze] at hne
  | .progTick t =>
    have hc : ¬s.progressInterval = some t := by
      rw [a4]
      simp
    show IdleNoGaze (tickStep s t)
    unfold tickStep
    rw [if_neg hc]
    exact ⟨a1, a2, a3, a4, a5, a6, a7⟩
  | .dwellFire t b =>
    rw [show step s (Ev.dwellFire t b) = fireStep s t b from rfl,
      fireStep_eq_none s t b a3]
    exact ⟨a1, a2, a3, a4, a5, a6, a7⟩
  | .mouseTimeout t =>
    show IdleNoGaze (mtoStep s t)
    unfold mtoStep
    by_cases hc : s.mouseTimer = some t
    · rw [if_pos hc]
      exact ⟨a1, a2, a3, a4, a5, a6, a7⟩
    · rw [if_neg hc]
      exact ⟨a1, a2, a3, a4, a5, a6, a7⟩
  | .disable t => exact ⟨rfl, rfl, rfl, rfl, a5, a6, a7⟩

lemma idle_no_gaze_run (s : HookState) (evs : List Ev)
    (hng : evs.all (fun e => !e.isGaze) = true) (h : IdleNoGaze s) :
    IdleNoGaze (runFrom s evs) := by
  induction evs generalizing s with
  | nil => exact h
  | cons e es ih =>
    rw [List.all_cons] at hng
    obtain ⟨h1, h2⟩ := Bool.and_eq_true_iff.mp hng
    exact ih (step s e) h2 (idle_no_gaze_step s e (Bool.not_eq_true' _ |>.mp h1) h)

/-- C10: a mousemove event mutates only the reported position, the source
flag, and the inactivity-timer bookkeeping — hovered target, dwell progress,
dwell timers, and the activation logs are untouched; and along any event
sequence containing no gaze samples, no hovered target is ever set and no
activation ever fires. -/
theorem C10_mouse_never_dwells (d : Nat) (s : HookState) (t : Nat) (p : Pt)
    (evs : List Ev) (hng : evs.all (fun e => !e.isGaze) = true) :
    (step s (Ev.mouse t p)).hoveredElement = s.hoveredElement ∧
    (step s (Ev.mouse t p)).dwellProgress = s.dwellProgress ∧
    (step s (Ev.mouse t p)).currentHovered = s.currentHovered ∧
    (step s (Ev.mouse t p)).dwellTimer = s.dwellTimer ∧
    (step s (Ev.mouse t p)).progressInterval = s.progressInterval ∧
    (step s (Ev.mouse t p)).fires = s.fires ∧
    (step s (Ev.mouse t p)).clicks = s.clicks ∧
    (step s (Ev.mouse t p)).dispatches = s.dispatches ∧
    (runFrom (initState d) evs).hoveredElement = none ∧
    (runFrom (initState d) evs).fires = [] ∧
    (runFrom (initState d) evs).clicks = [] ∧
    (runFrom (initState d) evs).dispatches = [] := by
  have hidle : IdleNoGaze (runFrom (initState d) evs) :=
    idle_no_gaze_run (initState d) evs hng
      ⟨rfl, rfl, rfl, rfl, rfl, rfl, rfl⟩
  exact ⟨rfl, rfl, rfl, rfl, rfl, rfl, rfl, rfl,
    hidle.1, hidle.2.2.2.2.1, hidle.2.2.2.2.2.1, hidle.2.2.2.2.2.2⟩

/-- C9 amended: when the dwell timer fires and the synthetic `click()`
throws, the exception is caught locally (the step is total and no error
escapes the listener), the selector still transitions to idle — hovered
target cleared, progress reset to 0, progress interval cleared — and the
catch block performs exactly one fallback activation attempt by dispatching
a manual `MouseEvent('click')`. -/
theorem C9_activation_failure_swallowed (d : Nat) (pre : List Ev) (dl : Nat)
    (T : String)
    (hok : okRun (initState d) (pre ++ [Ev.dwellFire dl true]) = true)
    (htimer : (runFrom (initState d) pre).dwellTimer = some (dl, T)) :
    (runFrom (initState d) (pre ++ [Ev.dwellFire dl true])).hoveredElement = none ∧
    (runFrom (initState d) (pre ++ [Ev.dwellFire dl true])).currentHovered = none ∧
    (runFrom (initState d) (pre ++ [Ev.dwellFire dl true])).dwellProgress = 0 ∧
    (runFrom (initState d) (pre ++ [Ev.dwellFire dl true])).progressInterval = none ∧
    (runFrom (initState d) (pre ++ [Ev.dwellFire dl true])).clicks =
      (runFrom (initState d) pre).clicks ∧
    (runFrom (initState d) (pre ++ [Ev.dwellFire dl true])).dispatches =
      (dl, T) :: (runFrom (initState d) pre).dispatches := by
  rw [runFrom_snoc,
    show step (runFrom (initState d) pre) (Ev.dwellFire dl true) =
      fireStep (runFrom (initState d) pre) dl true from rfl,
    fireStep_eq_some _ dl true dl T htimer, if_pos rfl]
  exact ⟨rfl, rfl, rfl, rfl, rfl, rfl⟩

/-- A simple DOM whose every point resolves to the target `"apple"`. -/
def appleDom : Dom := fun _ => [⟨some "apple", some "apple", true⟩]

/-- A dwell on `"apple"` started at 10 ms with `dwellTime = 50` whose timer
fires at 60 ms with a throwing `click()`. -/
def c9trace : List Ev :=
  [Ev.gaze 10 appleDom (some ⟨100, 100⟩), Ev.dwellFire 60 true]

/-- C9 counterexample: when the synthetic `click()` throws at dwell
completion, the code does retry the activation — the catch block dispatches
a manual `MouseEvent('click')` on the target — contradicting the claim that
the failed activation is not retried. -/
theorem C9_counterexample :
    okRun (initState 50) c9trace = true ∧
    (runFrom (initState 50) c9trace).dispatches = [(60, "apple")] ∧
    (runFrom (initState 50) c9trace).hoveredElement = none ∧
    (runFrom (initState 50) c9trace).dwellProgress = 0 := by
  refine ⟨by decide, by decide, by decide, by decide⟩

/-- Disabled states with everything cleared. -/
def DisabledClear (s : HookState) : Prop :=
  s.enabled = false ∧ s.hoveredElement = none ∧ s.currentHovered = none ∧
  s.dwellProgress = 0 ∧ s.dwellTimer = none ∧ s.progressInterval = none ∧
  s.mouseTimer = none

lemma disabled_clear_step (s : HookState) (e : Ev) (hok : okEv s e = true)
    (h : DisabledClear s) :
    DisabledClear (step s e) ∧ (step s e).clicks = s.clicks ∧
      (step s e).fires = s.fires ∧ (step s e).dispatches = s.dispatches := by
  obtain ⟨a1, a2, a3, a4, a5, a6, a7⟩ := h
  match e with
  | .mouse t p =>
    exfalso
    unfold okEv at hok
    rw [a1] at hok
    simp at hok
  | .gaze t dom dd =>
    exfalso
    unfold okEv at hok
    rw [a1] at hok
    simp at hok
  | .disable t =>
    exfalso
    unfold okEv at hok
    rw [a1] at hok
    simp at hok
  | .progTick t =>
    have hc : ¬s.progressInterval = some t := by
      rw [a6]
      simp
    rw [show step s (Ev.progTick t) = tickStep s t from rfl]
    unfold tickStep
    rw [if_neg hc]
    exact ⟨⟨a1, a2, a3, a4, a5, a6, a7⟩, rfl, rfl, rfl⟩
  | .dwellFire t b =>
    rw [show step s (Ev.dwellFire t b) = fireStep s t b from rfl,
      fireStep_eq_none s t b a5]
    exact ⟨⟨a1, a2, a3, a4, a5, a6, a7⟩, rfl, rfl, rfl⟩
  | .mouseTimeout t =>
    have hc : ¬s.mouseTimer = some t := by
      rw [a7]
      simp
    rw [show step s (Ev.mouseTimeout t) = mtoStep s t from rfl]
    unfold mtoStep
    rw [if_neg hc]
    exact ⟨⟨a1, a2, a3, a4, a5, a6, a7⟩, rfl, rfl, rfl⟩

lemma disabled_clear_run (s : HookState) (evs : List Ev)
    (hok : okRun s evs = true) (h : DisabledClear s) :
    DisabledClear (runFrom s evs) ∧ (runFrom s evs).clicks = s.clicks ∧
      (runFrom s evs).fires = s.fires ∧
      (runFrom s evs).dispatches = s.dispatches := by
  induction evs generalizing s with
  | nil => exact ⟨h, rfl, rfl, rfl⟩
  | cons e es ih =>
    obtain ⟨h1, h2⟩ := Bool.and_eq_true_iff.mp hok
    obtain ⟨hd, hc, hf, hdi⟩ := disabled_clear_step s e h1 h
    obtain ⟨hd2, hc2, hf2, hdi2⟩ := ih (step s e) h2 hd
    exact ⟨hd2, hc2.trans hc, hf2.trans hf, hdi2.trans hdi⟩

/-- C3: disabling the hook mid-dwell immediately clears the hovered target
and resets progress to 0, synchronously cancels the dwell timer, the
progress-tick interval and the pointer-inactivity timer, and in every valid
continuation (in which the cancelled callbacks are no-ops and no activation
can occur) the activation logs never grow and the state stays cleared. -/
theorem C3_disable_cancels_everything (d : Nat) (pre : List Ev) (t : Nat)
    (hok : okRun (initState d) (pre ++ [Ev.disable t]) = true)
    (hdwell : (runFrom (initState d) pre).dwellTimer.isSome = true) :
    (runFrom (initState d) (pre ++ [Ev.disable t])).hoveredElement = none ∧
    (runFrom (initState d) (pre ++ [Ev.disable t])).dwellProgress = 0 ∧
    (runFrom (initState d) (pre ++ [Ev.disable t])).dwellTimer = none ∧
    (runFrom (initState d) (pre ++ [Ev.disable t])).progressInterval = none ∧
    (runFrom (initState d) (pre ++ [Ev.disable t])).mouseTimer = none ∧
    (∀ evs, okRun (runFrom (initState d) (pre ++ [Ev.disable t])) evs = true →
      (runFrom (runFrom (initState d) (pre ++ [Ev.disable t])) evs).clicks =
        (runFrom (initState d) (pre ++ [Ev.disable t])).clicks ∧
      (runFrom (runFrom (initState d) (pre ++ [Ev.disable t])) evs).fires =
        (runFrom (initState d) (pre ++ [Ev.disable t])).fires ∧
      (runFrom (runFrom (initState d) (pre ++ [Ev.disable t])) evs).hoveredElement = none ∧
      (runFrom (runFrom (initState d) (pre ++ [Ev.disable t])) evs).dwellProgress = 0) := by
  rw [runFrom_snoc]
  refine ⟨rfl, rfl, rfl, rfl, rfl, ?_⟩
  intro evs hevs
  obtain ⟨hd2, hc2, hf2, _⟩ := disabled_clear_run _ evs hevs
    ⟨rfl, rfl, rfl, rfl, rfl, rfl, rfl⟩
  exact ⟨hc2, hf2, hd2.2.1, hd2.2.2.2.1⟩

lemma dwell_hold (T : String) (dl : Nat) (evs : List Ev) :
    ∀ (s : HookState), s.currentHovered = some T →
    s.dwellTimer = some (dl, T) → okRun s evs = true →
    allResolveT T s evs = true →
    evs.all (fun e => !e.isDisable) = true →
    evs.all (fun e => !e.isFire) = true →
    (runFrom s evs).currentHovered = some T ∧
    (runFrom s evs).dwellTimer = some (dl, T) ∧
    (runFrom s evs).fires = s.fires ∧
    (runFrom s evs).clicks = s.clicks ∧
    (runFrom s evs).dispatches = s.dispatches := by
  induction evs with
  | nil =>
    intro s h1 h2 _ _ _ _
    exact ⟨h1, h2, rfl, rfl, rfl⟩
  | cons e es ih =>
    intro s h1 h2 hok hres hnd hnf
    rw [List.all_cons] at hnd hnf
    obtain ⟨hnd1, hnd2⟩ := Bool.and_eq_true_iff.mp hnd
    obtain ⟨hnf1, hnf2⟩ := Bool.and_eq_true_iff.mp hnf
    obtain ⟨hok1, hok2⟩ := Bool.and_eq_true_iff.mp hok
    unfold allResolveT at hres
    obtain ⟨hres1, hres2⟩ := Bool.and_eq_true_iff.mp hres
    have hpres : (step s e).currentHovered = some T ∧
        (step s e).dwellTimer = some (dl, T) ∧
        (step s e).fires = s.fires ∧ (step s e).clicks = s.clicks ∧
        (step s e).dispatches = s.dispatches := by
      match e with
      | .mouse t p => exact ⟨h1, h2, rfl, rfl, rfl⟩
      | .progTick t =>
        rw [show step s (Ev.progTick t) = tickStep s t from rfl]
        unfold tickStep
        by_cases hc : s.progressInterval = some t
        · rw [if_pos hc]
          exact ⟨h1, h2, rfl, rfl, rfl⟩
        · rw [if_neg hc]
          exact ⟨h1, h2, rfl, rfl, rfl⟩
      | .mouseTimeout t =>
        rw [show step s (Ev.mouseTimeout t) = mtoStep s t from rfl]
        unfold mtoStep
        by_cases hc : s.mouseTimer = some t
        · rw [if_pos hc]
          exact ⟨h1, h2, rfl, rfl, rfl⟩
        · rw [if_neg hc]
          exact ⟨h1, h2, rfl, rfl, rfl⟩
      | .dwellFire t b => simp [Ev.isFire] at hnf1
      | .disable t => simp [Ev.isDisable] at hnd1
      | .gaze t dom dd =>
        match dd with
        | none => exact ⟨h1, h2, rfl, rfl, rfl⟩
        | some p =>
          have hr : resolveTarget dom (currentPointFor s p) = some T := by
            have := hres1
            unfold resolvesTo at this
            exact eq_of_beq this
          rcases hm : s.isUsingMouse with hf | htr
          · have heq : step s (Ev.gaze t dom (some p)) =
                { s with now := t, gazePosition := some p } := by
              rw [show step s (Ev.gaze t dom (some p)) =
                  gazeStep s t dom (some p) from rfl,
                gazeStep_eq_gazeMode s t dom p hm, hr]
              exact dwellTransition_same _ t T h1
            rw [heq]
            exact ⟨h1, h2, rfl, rfl, rfl⟩
          · have heq : step s (Ev.gaze t dom (some p)) =
                { s with now := t } := by
              rw [show step s (Ev.gaze t dom (some p)) =
                  gazeStep s t dom (some p) from rfl,
                gazeStep_eq_mouseMode s t dom p hm, hr]
              exact dwellTransition_same _ t T h1
            rw [heq]
            exact ⟨h1, h2, rfl, rfl, rfl⟩
    obtain ⟨p1, p2, p3, p4, p5⟩ := hpres
    obtain ⟨q1, q2, q3, q4, q5⟩ := ih (step s e) p1 p2 hok2 hres2 hnd2 hnf2
    exact ⟨q1, q2, q3.trans p3, q4.trans p4, q5.trans p5⟩

/-- C1: from the moment a dwell on target `T` starts (hovered ref `some T`,
dwell timer armed for deadline `dl`), any number of further valid events in
which every gaze sample still resolves to `T` (and the hook is not disabled)
leaves the timer armed and fires nothing; when the deadline arrives the timer
fires exactly once, appending a single activation of `T` (a successful
`click()` when the activation does not throw), and immediately afterwards the
hovered target and ref are null and the dwell progress is 0. -/
theorem C1_single_activation_per_occupancy (d : Nat) (pre evs : List Ev)
    (T : String) (dl : Nat) (b : Bool)
    (hok : okRun (initState d) ((pre ++ evs) ++ [Ev.dwellFire dl b]) = true)
    (hhov : (runFrom (initState d) pre).currentHovered = some T)
    (htimer : (runFrom (initState d) pre).dwellTimer = some (dl, T))
    (hres : allResolveT T (runFrom (initState d) pre) evs = true)
    (hnd : evs.all (fun e => !e.isDisable) = true)
    (hnf : evs.all (fun e => !e.isFire) = true) :
    (runFrom (initState d) ((pre ++ evs) ++ [Ev.dwellFire dl b])).fires =
      (dl, T) :: (runFrom (initState d) pre).fires ∧
    (b = false →
      (runFrom (initState d) ((pre ++ evs) ++ [Ev.dwellFire dl b])).clicks =
        (dl, T) :: (runFrom (initState d) pre).clicks) ∧
    (runFrom (initState d) ((pre ++ evs) ++ [Ev.dwellFire dl b])).hoveredElement = none ∧
    (runFrom (initState d) ((pre ++ evs) ++ [Ev.dwellFire dl b])).currentHovered = none ∧
    (runFrom (initState d) ((pre ++ evs) ++ [Ev.dwellFire dl b])).dwellProgress = 0 := by
  have hokpre : okRun (initState d) (pre ++ evs) = true := by
    obtain ⟨hp, _⟩ := okRun_snoc (initState d) (pre ++ evs) (Ev.dwellFire dl b) hok
    exact hp
  have hokevs : okRun (runFrom (initState d) pre) evs = true := by
    rw [okRun_append] at hokpre
    exact (Bool.and_eq_true_iff.mp hokpre).2
  obtain ⟨q1, q2, q3, q4, _⟩ :=
    dwell_hold T dl evs (runFrom (initState d) pre) hhov htimer hokevs hres hnd hnf
  rw [runFrom_snoc, runFrom_append,
    show step (runFrom (runFrom (initState d) pre) evs) (Ev.dwellFire dl b) =
      fireStep (runFrom (runFrom (initState d) pre) evs) dl b from rfl,
    fireStep_eq_some _ dl b dl T q2, if_pos rfl]
  refine ⟨?_, ?_, rfl, rfl, rfl⟩
  · show (dl, T) :: (runFrom (runFrom (initState d) pre) evs).fires = _
    rw [q3]
  · intro hb
    show (if b then (runFrom (runFrom (initState d) pre) evs).clicks
      else (dl, T) :: (runFrom (runFrom (initState d) pre) evs).clicks) = _
    rw [hb, if_neg (by simp), q4]

/-- Capability-lifecycle state shared by both hook variants:
`webgazerInitialized` is the module-level flag, `webgazerPresent` models
`window.webgazer` being defined, `scriptsLoading` counts appended script tags
whose `onload` is pending, `beginsPending` counts `begin()` calls whose
`.then` has not yet run, `initTimerPending` models the 1000 ms post-begin
`setTimeout` that sets `isInitialized`, and `acquisitions` is a ghost count
of `begin()` invocations (acquisition starts). -/
structure LState where
  enabled : Bool
  webgazerInitialized : Bool
  webgazerPresent : Bool
  scriptsLoading : Nat
  beginsPending : Nat
  initTimerPending : Bool
  isInitialized : Bool
  acquisitions : Nat
deriving DecidableEq, Repr

def linit : LState :=
  { enabled := false, webgazerInitialized := false, webgazerPresent := false,
    scriptsLoading := 0, beginsPending := 0, initTimerPending := false,
    isInitialized := false, acquisitions := 0 }

/-- Lifecycle events: the `enabled` prop toggling, a script tag's
`onload`/`onerror`, `begin()` settling, and the 1000 ms initialization
timeout firing. -/
inductive LEv where
  | enable
  | disable
  | scriptLoaded
  | scriptError
  | beginResolved
  | beginRejected
  | initTimerFire
deriving DecidableEq, Repr

/-- Lifecycle event validity: each completion event requires its cause to be
outstanding. -/
def okLEv (s : LState) : LEv → Bool
  | .enable => !s.enabled
  | .disable => s.enabled
  | .scriptLoaded => decide (0 < s.scriptsLoading)
  | .scriptError => decide (0 < s.scriptsLoading)
  | .beginResolved => decide (0 < s.beginsPending)
  | .beginRejected => decide (0 < s.beginsPending)
  | .initTimerFire => s.initTimerPending

def lrun (f : LState → LEv → LState) : LState → List LEv → LState
  | s, [] => s
  | s, e :: es => lrun f (f s e) es

def lok (f : LState → LEv → LState) : LState → List LEv → Bool
  | _, [] => true
  | s, e :: es => okLEv s e && lok f (f s e) es

/-- Lifecycle of src/unnamed/part_002: on enable, resume when the module flag
is set and `window.webgazer` exists, otherwise append a fresh script tag; on
disable, call `end()` and reset the module flag (full-teardown policy); a
script load invokes `begin()` (one acquisition); `begin()` resolving sets the
module flag and arms the 1000 ms timer that later sets `isInitialized` —
nothing guards these completions against an intervening disable. -/
def ET.lstep (s : LState) : LEv → LState
  | .enable =>
    if s.webgazerInitialized && s.webgazerPresent then
      { s with enabled := true, isInitialized := true }
    else if s.webgazerInitialized then
      { s with enabled := true }
    else
      { s with enabled := true, scriptsLoading := s.scriptsLoading + 1 }
  | .disable =>
    { s with enabled := false, isInitialized := false,
             webgazerInitialized :=
               if s.webgazerPresent && s.webgazerInitialized then false
               else s.webgazerInitialized }
  | .scriptLoaded =>
    { s with scriptsLoading := s.scriptsLoading - 1, webgazerPresent := true,
             beginsPending := s.beginsPending + 1,
             acquisitions := s.acquisitions + 1 }
  | .scriptError => { s with scriptsLoading := s.scriptsLoading - 1 }
  | .beginResolved =>
    { s with beginsPending := s.beginsPending - 1,
             webgazerInitialized := true, initTimerPending := true }
  | .beginRejected => { s with beginsPending := s.beginsPending - 1 }
  | .initTimerFire =>
    { s with initTimerPending := false, isInitialized := true }

/-- Lifecycle of src/hooks/useEyeTracking.ts: identical except that disable
calls `pause()` and keeps the module flag set (pause policy). -/
def Hk.lstep (s : LState) : LEv → LState
  | .enable =>
    if s.webgazerInitialized && s.webgazerPresent then
      { s with enabled := true, isInitialized := true }
    else if s.webgazerInitialized then
      { s with enabled := true }
    else
      { s with enabled := true, scriptsLoading := s.scriptsLoading + 1 }
  | .disable => { s with enabled := false, isInitialized := false }
  | .scriptLoaded =>
    { s with scriptsLoading := s.scriptsLoading - 1, webgazerPresent := true,
             beginsPending := s.beginsPending + 1,
             acquisitions := s.acquisitions + 1 }
  | .scriptError => { s with scriptsLoading := s.scriptsLoading - 1 }
  | .beginResolved =>
    { s with beginsPending := s.beginsPending - 1,
             webgazerInitialized := true, initTimerPending := true }
  | .beginRejected => { s with beginsPending := s.beginsPending - 1 }
  | .initTimerFire =>
    { s with initTimerPending := false, isInitialized := true }

/-- Enable, acquire successfully, disable (which runs `end()` and clears the
module flag), enable again: the second enable appends a fresh script whose
load starts a second acquisition. -/
def c6trace : List LEv :=
  [LEv.enable, LEv.scriptLoaded, LEv.beginResolved, LEv.initTimerFire,
   LEv.disable, LEv.enable, LEv.scriptLoaded]

/-- C6 counterexample: in src/unnamed/part_002, a disable after a successful
initialization re-invokes capability acquisition on the next enable — two
acquisition starts across two enable cycles, refuting "started at most
once". -/
theorem C6_counterexample :
    lok ET.lstep linit c6trace = true ∧
    (lrun ET.lstep linit c6trace).acquisitions = 2 := by
  refine ⟨by decide, by decide⟩

/-- A lifecycle state in which initialization completed and no other
acquisition is in flight. -/
def QuiescentInit (s : LState) : Bool :=
  s.webgazerInitialized && s.webgazerPresent &&
  decide (s.scriptsLoading = 0) && decide (s.beginsPending = 0)

lemma quiescent_parts (s : LState) (hq : QuiescentInit s = true) :
    s.webgazerInitialized = true ∧ s.webgazerPresent = true ∧
    s.scriptsLoading = 0 ∧ s.beginsPending = 0 := by
  unfold QuiescentInit at hq
  simp only [Bool.and_eq_true, decide_eq_true_eq] at hq
  exact ⟨hq.1.1.1, hq.1.1.2, hq.1.2, hq.2⟩

lemma hk_enable_resume (s : LState) (hi : s.webgazerInitialized = true)
    (hp : s.webgazerPresent = true) :
    Hk.lstep s LEv.enable = { s with enabled := true, isInitialized := true } := by
  simp only [Hk.lstep]
  rw [hi, hp]
  simp

/-- C6 amended: in the pause-policy variant (src/hooks/useEyeTracking.ts),
once initialization has completed with no other acquisition in flight, no
later sequence of lifecycle events ever starts another acquisition, and
every enable from the disabled state resumes the existing instance
(`isInitialized` comes back as true without a new `begin()`). -/
theorem C6_resume_without_reacquisition (s : LState) (evs : List LEv)
    (hq : QuiescentInit s = true) (hok : lok Hk.lstep s evs = true) :
    (lrun Hk.lstep s evs).acquisitions = s.acquisitions ∧
    QuiescentInit (lrun Hk.lstep s evs) = true ∧
    ((lrun Hk.lstep s evs).enabled = false →
      (Hk.lstep (lrun Hk.lstep s evs) LEv.enable).isInitialized = true) := by
  induction evs generalizing s with
  | nil =>
    obtain ⟨b1, b2, _, _⟩ := quiescent_parts s hq
    refine ⟨rfl, hq, ?_⟩
    intro _
    show (Hk.lstep s LEv.enable).isInitialized = true
    rw [hk_enable_resume s b1 b2]
  | cons e es ih =>
    obtain ⟨hok1, hok2⟩ := Bool.and_eq_true_iff.mp hok
    obtain ⟨b1, b2, b3, b4⟩ := quiescent_parts s hq
    have hstep : QuiescentInit (Hk.lstep s e) = true ∧
        (Hk.lstep s e).acquisitions = s.acquisitions := by
      match e with
      | .enable =>
        rw [hk_enable_resume s b1 b2]
        exact ⟨hq, rfl⟩
      | .disable => exact ⟨hq, rfl⟩
      | .scriptLoaded =>
        exfalso
        unfold okLEv at hok1
        rw [b3] at hok1
        simp at hok1
      | .scriptError =>
        exfalso
        unfold okLEv at hok1
        rw [b3] at hok1
        simp at hok1
      | .beginResolved =>
        exfalso
        unfold okLEv at hok1
        rw [b4] at hok1
        simp at hok1
      | .beginRejected =>
        exfalso
        unfold okLEv at hok1
        rw [b4] at hok1
        simp at hok1
      | .initTimerFire => exact ⟨hq, rfl⟩
    obtain ⟨c1, c2, c3⟩ := ih (Hk.lstep s e) hstep.1 hok2
    exact ⟨c1.trans hstep.2, c2, c3⟩

/-- Enable, script load (acquisition starts), user disables before `begin()`
settles, then the acquisition succeeds late and its 1000 ms timer fires. -/
def c8trace : List LEv :=
  [LEv.enable, LEv.scriptLoaded, LEv.disable, LEv.beginResolved,
   LEv.initTimerFire]

/-- C8 evidence (src/unnamed/part_002, identical in the hooks variant): a
`begin()` success arriving after the user disabled is not detected or
discarded — the `.then` callback sets the module flag and the 1000 ms timer
then sets `isInitialized = true`, resurrecting initialized state while the
hook is disabled. -/
theorem C8_late_success_resurrects_state :
    lok ET.lstep linit c8trace = true ∧
    (lrun ET.lstep linit c8trace).enabled = false ∧
    (lrun ET.lstep linit c8trace).webgazerInitialized = true ∧
    (lrun ET.lstep linit c8trace).isInitialized = true := by
  refine ⟨by decide, by decide, by decide, by decide⟩

def c1pre : List Ev := [Ev.gaze 10 appleDom (some ⟨100, 100⟩)]

def c1evs : List Ev := [Ev.gaze 30 appleDom (some ⟨120, 100⟩)]

/-- C1 witness: with `dwellTime = 50`, a dwell on `"apple"` starting at 10 ms,
an intermediate same-target sample at 30 ms, and the timer firing at 60 ms. -/
theorem C1_single_activation_per_occupancy_witness :
    okRun (initState 50) ((c1pre ++ c1evs) ++ [Ev.dwellFire 60 false]) = true ∧
    (runFrom (initState 50) c1pre).currentHovered = some "apple" ∧
    (runFrom (initState 50) c1pre).dwellTimer = some (60, "apple") ∧
    allResolveT "apple" (runFrom (initState 50) c1pre) c1evs = true ∧
    c1evs.all (fun e => !e.isDisable) = true ∧
    c1evs.all (fun e => !e.isFire) = true ∧
    ((runFrom (initState 50) ((c1pre ++ c1evs) ++ [Ev.dwellFire 60 false])).fires =
      (60, "apple") :: (runFrom (initState 50) c1pre).fires ∧
    (false = false →
      (runFrom (initState 50) ((c1pre ++ c1evs) ++ [Ev.dwellFire 60 false])).clicks =
        (60, "apple") :: (runFrom (initState 50) c1pre).clicks) ∧
    (runFrom (initState 50) ((c1pre ++ c1evs) ++ [Ev.dwellFire 60 false])).hoveredElement = none ∧
    (runFrom (initState 50) ((c1pre ++ c1evs) ++ [Ev.dwellFire 60 false])).currentHovered = none ∧
    (runFrom (initState 50) ((c1pre ++ c1evs) ++ [Ev.dwellFire 60 false])).dwellProgress = 0) :=
  ⟨by decide, by decide, by decide, by decide, by decide, by decide,
    C1_single_activation_per_occupancy 50 c1pre c1evs "apple" 60 false
      (by decide) (by decide) (by decide) (by decide) (by decide) (by decide)⟩

def c2pre : List Ev := [Ev.gaze 10 appleDom (some ⟨100, 100⟩)]

/-- C2 witness: a dwell starting at 10 ms with `dwellTime = 2000` and a
progress tick at 60 ms. -/
theorem C2_progress_range_monotone_reset_witness :
    okRun (initState 2000) (c2pre ++ [Ev.progTick 60]) = true ∧
    (0 ≤ (runFrom (initState 2000) (c2pre ++ [Ev.progTick 60])).dwellProgress ∧
    (runFrom (initState 2000) (c2pre ++ [Ev.progTick 60])).dwellProgress ≤ 100 ∧
    ((runFrom (initState 2000) (c2pre ++ [Ev.progTick 60])).hoveredElement =
        (runFrom (initState 2000) c2pre).hoveredElement →
      (runFrom (initState 2000) c2pre).dwellProgress ≤
        (runFrom (initState 2000) (c2pre ++ [Ev.progTick 60])).dwellProgress) ∧
    ((runFrom (initState 2000) (c2pre ++ [Ev.progTick 60])).hoveredElement ≠
        (runFrom (initState 2000) c2pre).hoveredElement →
      (runFrom (initState 2000) (c2pre ++ [Ev.progTick 60])).dwellProgress = 0)) :=
  ⟨by decide,
    C2_progress_range_monotone_reset 2000 c2pre (Ev.progTick 60) (by decide)⟩

/-- C3 witness: a dwell on `"apple"` with deadline 60 ms, disabled at 30 ms. -/
theorem C3_disable_cancels_everything_witness :
    okRun (initState 50) (c1pre ++ [Ev.disable 30]) = true ∧
    (runFrom (initState 50) c1pre).dwellTimer.isSome = true ∧
    ((runFrom (initState 50) (c1pre ++ [Ev.disable 30])).hoveredElement = none ∧
    (runFrom (initState 50) (c1pre ++ [Ev.disable 30])).dwellProgress = 0 ∧
    (runFrom (initState 50) (c1pre ++ [Ev.disable 30])).dwellTimer = none ∧
    (runFrom (initState 50) (c1pre ++ [Ev.disable 30])).progressInterval = none ∧
    (runFrom (initState 50) (c1pre ++ [Ev.disable 30])).mouseTimer = none ∧
    (∀ evs, okRun (runFrom (initState 50) (c1pre ++ [Ev.disable 30])) evs = true →
      (runFrom (runFrom (initState 50) (c1pre ++ [Ev.disable 30])) evs).clicks =
        (runFrom (initState 50) (c1pre ++ [Ev.disable 30])).clicks ∧
      (runFrom (runFrom (initState 50) (c1pre ++ [Ev.disable 30])) evs).fires =
        (runFrom (initState 50) (c1pre ++ [Ev.disable 30])).fires ∧
      (runFrom (runFrom (initState 50) (c1pre ++ [Ev.disable 30])) evs).hoveredElement = none ∧
      (runFrom (runFrom (initState 50) (c1pre ++ [Ev.disable 30])) evs).dwellProgress = 0)) :=
  ⟨by decide, by decide,
    C3_disable_cancels_everything 50 c1pre 30 (by decide) (by decide)⟩

def c5pre : List Ev := [Ev.mouse 10 ⟨3, 4⟩]

/-- C5 witness: a single mousemove at 10 ms. -/
theorem C5_source_arbitration_witness :
    okRun (initState 2000) c5pre = true ∧
    (((runFrom (initState 2000) c5pre).isUsingMouse = true →
      ∃ tm, (runFrom (initState 2000) c5pre).lastMouseAt = some tm ∧
        (runFrom (initState 2000) c5pre).now ≤ tm + 5000) ∧
    ((runFrom (initState 2000) c5pre).isUsingMouse = false →
      (runFrom (initState 2000) c5pre).lastMouseAt = none ∨
      ∃ tm, (runFrom (initState 2000) c5pre).lastMouseAt = some tm ∧
        tm + 5000 ≤ (runFrom (initState 2000) c5pre).now) ∧
    (∀ t p, (step (runFrom (initState 2000) c5pre) (Ev.mouse t p)).isUsingMouse = true ∧
      (step (runFrom (initState 2000) c5pre) (Ev.mouse t p)).gazePosition = some p ∧
      (step (runFrom (initState 2000) c5pre) (Ev.mouse t p)).mouseTimer = some (t + 5000)) ∧
    (∀ t, (runFrom (initState 2000) c5pre).mouseTimer = some t →
      (step (runFrom (initState 2000) c5pre) (Ev.mouseTimeout t)).isUsingMouse = false)) :=
  ⟨by decide, C5_source_arbitration 2000 c5pre (by decide)⟩

/-- C7 witness: a mousemove at 10 ms then a gaze sample at 20 ms. -/
theorem C7_gaze_sample_dual_track_witness :
    okRun (initState 2000) (c5pre ++ [Ev.gaze 20 appleDom (some ⟨200, 200⟩)]) = true ∧
    (((runFrom (initState 2000) c5pre).isUsingMouse = true →
      ∃ q, (runFrom (initState 2000) c5pre).gazePosition = some q ∧
        (runFrom (initState 2000) c5pre).lastMousePt = some q ∧
        (runFrom (initState 2000) (c5pre ++ [Ev.gaze 20 appleDom (some ⟨200, 200⟩)])).gazePosition = some q ∧
        runFrom (initState 2000) (c5pre ++ [Ev.gaze 20 appleDom (some ⟨200, 200⟩)]) =
          dwellTransition { runFrom (initState 2000) c5pre with now := 20 } 20
            (resolveTarget appleDom q)) ∧
    ((runFrom (initState 2000) c5pre).isUsingMouse = false →
      (runFrom (initState 2000) (c5pre ++ [Ev.gaze 20 appleDom (some ⟨200, 200⟩)])).gazePosition = some ⟨200, 200⟩ ∧
      runFrom (initState 2000) (c5pre ++ [Ev.gaze 20 appleDom (some ⟨200, 200⟩)]) =
        dwellTransition { runFrom (initState 2000) c5pre with
          now := 20, gazePosition := some ⟨200, 200⟩ } 20
          (resolveTarget appleDom ⟨200, 200⟩))) :=
  ⟨by decide,
    C7_gaze_sample_dual_track 2000 c5pre 20 appleDom ⟨200, 200⟩ (by decide)⟩

/-- C9 witness: the dwell on `"apple"` whose activation throws at 60 ms. -/
theorem C9_activation_failure_swallowed_witness :
    okRun (initState 50) (c1pre ++ [Ev.dwellFire 60 true]) = true ∧
    (runFrom (initState 50) c1pre).dwellTimer = some (60, "apple") ∧
    ((runFrom (initState 50) (c1pre ++ [Ev.dwellFire 60 true])).hoveredElement = none ∧
    (runFrom (initState 50) (c1pre ++ [Ev.dwellFire 60 true])).currentHovered = none ∧
    (runFrom (initState 50) (c1pre ++ [Ev.dwellFire 60 true])).dwellProgress = 0 ∧
    (runFrom (initState 50) (c1pre ++ [Ev.dwellFire 60 true])).progressInterval = none ∧
    (runFrom (initState 50) (c1pre ++ [Ev.dwellFire 60 true])).clicks =
      (runFrom (initState 50) c1pre).clicks ∧
    (runFrom (initState 50) (c1pre ++ [Ev.dwellFire 60 true])).dispatches =
      (60, "apple") :: (runFrom (initState 50) c1pre).dispatches) :=
  ⟨by decide, by decide,
    C9_activation_failure_swallowed 50 c1pre 60 "apple" (by decide) (by decide)⟩

def c10evs : List Ev := [Ev.mouse 3 ⟨1, 2⟩, Ev.disable 10]

/-- C10 witness: a mousemove applied to a mid-run state, and a gaze-free
event sequence. -/
theorem C10_mouse_never_dwells_witness :
    c10evs.all (fun e => !e.isGaze) = true ∧
    ((step (initState 7) (Ev.mouse 3 ⟨1, 2⟩)).hoveredElement = (initState 7).hoveredElement ∧
    (step (initState 7) (Ev.mouse 3 ⟨1, 2⟩)).dwellProgress = (initState 7).dwellProgress ∧
    (step (initState 7) (Ev.mouse 3 ⟨1, 2⟩)).currentHovered = (initState 7).currentHovered ∧
    (step (initState 7) (Ev.mouse 3 ⟨1, 2⟩)).dwellTimer = (initState 7).dwellTimer ∧
    (step (initState 7) (Ev.mouse 3 ⟨1, 2⟩)).progressInterval = (initState 7).progressInterval ∧
    (step (initState 7) (Ev.mouse 3 ⟨1, 2⟩)).fires = (initState 7).fires ∧
    (step (initState 7) (Ev.mouse 3 ⟨1, 2⟩)).clicks = (initState 7).clicks ∧
    (step (initState 7) (Ev.mouse 3 ⟨1, 2⟩)).dispatches = (initState 7).dispatches ∧
    (runFrom (initState 7) c10evs).hoveredElement = none ∧
    (runFrom (initState 7) c10evs).fires = [] ∧
    (runFrom (initState 7) c10evs).clicks = [] ∧
    (runFrom (initState 7) c10evs).dispatches = []) :=
  ⟨by decide, C10_mouse_never_dwells 7 (initState 7) 3 ⟨1, 2⟩ c10evs (by decide)⟩

def c6resumeState : LState :=
  { enabled := true, webgazerInitialized := true, webgazerPresent := true,
    scriptsLoading := 0, beginsPending := 0, initTimerPending := false,
    isInitialized := true, acquisitions := 1 }

def c6resumeEvs : List LEv := [LEv.disable, LEv.enable, LEv.disable, LEv.enable]

/-- C6 amended witness: two disable/enable cycles from an initialized
pause-policy state keep the acquisition count at 1. -/
theorem C6_resume_without_reacquisition_witness :
    QuiescentInit c6resumeState = true ∧
    lok Hk.lstep c6resumeState c6resumeEvs = true ∧
    ((lrun Hk.lstep c6resumeState c6resumeEvs).acquisitions = c6resumeState.acquisitions ∧
    QuiescentInit (lrun Hk.lstep c6resumeState c6resumeEvs) = true ∧
    ((lrun Hk.lstep c6resumeState c6resumeEvs).enabled = false →
      (Hk.lstep (lrun Hk.lstep c6resumeState c6resumeEvs) LEv.enable).isInitialized = true)) :=
  ⟨by decide, by decide,
    C6_resume_without_reacquisition c6resumeState c6resumeEvs (by decide) (by decide)⟩
